import Mathlib

/-
Verification development for the OpenMDAO expression evaluator
(openmdao.main/src/openmdao/main/expreval.py).

The module translates an arithmetic expression over dotted names written
against a scoping object into a new expression string in which every
foreign reference (a name the scope does not contain) is replaced by an
accessor call on the scope or its parent (get / set / invoke), compiles
the result, and caches it on an ExprEvaluator object.

The embedding below mirrors the source: the pyparsing parse actions
(_trans_lhs, _trans_assign, _trans_arrayindex, _trans_arglist,
_trans_fancyname) become pure Lean functions on token lists; the grammar
becomes a fuel-indexed recursive-descent parser producing the same token
lists and firing the same actions; ExprEvaluator state mutation becomes
explicit state passing.  Python exceptions raised by the actions become
an error type threaded through the parser.  The scope collaborator is a
record of its contains / hasattr / parent capabilities.  Python's
compile is modelled by wrapping the compiled source text; eval/exec of
the compiled accessor calls against the live parent scope is modelled
from the spec (see the Store section below), since the accessor
implementations live outside this part of the repository.
-/

set_option maxRecDepth 4000
set_option maxHeartbeats 1000000

namespace Expreval

/-- The apostrophe character used as the quote in generated accessor calls. -/
def quoteChar : Char := Char.ofNat 39

/-- Python set.add on a set modelled as a duplicate-free list. -/
def insertName (n : String) (l : List String) : List String :=
  if n ∈ l then l else l ++ [n]

/-- Take the head element, then skip `gap` elements between takes. -/
def pickEveryAux (gap : Nat) : Nat → List String → List String
  | _, [] => []
  | 0, x :: xs => x :: pickEveryAux gap gap xs
  | n + 1, _ :: xs => pickEveryAux gap n xs

/-- The elements of `l` at stride `gap + 1` starting from the head: used
to transcribe the Python loops `for index in range(3, len(tok), 2)`
(gap 1) and `for index in range(4, len(tok), 3)` (gap 2) after an
initial drop. -/
def pickEvery (gap : Nat) (l : List String) : List String :=
  pickEveryAux gap 0 l

/-- First occurrence split: `some (before, after)` when `pat` occurs in `l`. -/
def splitOnce (pat : List Char) : List Char → Option (List Char × List Char)
  | [] => none
  | c :: cs =>
    if pat.isPrefixOf (c :: cs) then some ([], (c :: cs).drop pat.length)
    else
      match splitOnce pat cs with
      | some (pre, post) => some (c :: pre, post)
      | none => none

/-- Python str.replace(pat, rep, 1): replace the first occurrence only. -/
def replaceFirst (s pat rep : String) : String :=
  match splitOnce pat.data s.data with
  | some (pre, post) => ⟨pre ++ rep.data ++ post⟩
  | none => s

/-- Whether `sub` occurs somewhere in `s`. -/
def strContainsSub (s sub : String) : Bool :=
  (splitOnce sub.data s.data).isSome

/-- Python exception kinds raised by the translation code. -/
inductive PyError where
  | runtimeError (msg : String)
  | attributeError (msg : String)
  | valueError (msg : String)
deriving DecidableEq

/-- The message of Python's AttributeError for `None.contains`. -/
def noneContainsMsg : String := "'NoneType' object has no attribute 'contains'"

/-- A parent scope: the translation code only calls its contains(). -/
structure ParentScope where
  contains : String → Bool

/-- The scoping object consumed by the translation: contains() membership,
Python-level attribute presence (hasattr), and an optional parent. -/
structure Scope where
  contains : String → Bool
  hasattr : String → Bool
  parent : Option ParentScope

/-- The ExprEvaluator fields mutated by parse actions during one
translate_expr call: the registered input/output name sets, the lhs/rhs
introspection texts, and the warnings emitted via scope.warning. -/
structure PS where
  inputNames : List String
  outputNames : List String
  lhs : String
  rhs : String
  warnings : List String
deriving DecidableEq

/-- The empty action state. -/
def psEmpty : PS := ⟨[], [], "", "", []⟩

/-- ExprEvaluator._register_input. -/
def registerInput (n : String) (ps : PS) : PS :=
  { ps with inputNames := insertName n ps.inputNames }

/-- ExprEvaluator._register_output. -/
def registerOutput (n : String) (ps : PS) : PS :=
  { ps with outputNames := insertName n ps.outputNames }

/-- scope.warning(msg): the advisory logging sink, recorded in order. -/
def addWarning (msg : String) (ps : PS) : PS :=
  { ps with warnings := ps.warnings ++ [msg] }

/-- The privacy warning text used by both _trans_lhs and _trans_fancyname. -/
def privateMsg (n : String) : String :=
  "attribute '" ++ n ++ "' is private so a public value in the parent is being used instead (if found)"

/-- Warn when the scope has the name as a plain attribute though contains()
is false (the privacy-shadowing advisory in _trans_lhs/_trans_fancyname). -/
def privWarn (sc : Scope) (n : String) (ps : PS) : PS :=
  if sc.hasattr n then addWarning (privateMsg n) ps else ps

/-- _trans_unary: the identity on its token list (defined but unused in the
source, kept for fidelity). -/
def transUnary (tok : List String) : List String := tok

/-- The optional first index group appended to a set() call by _trans_lhs:
`if len(tok) > 1 and tok[1] != '=': full += ","+tok[1]`. -/
def lhsTail (tok : List String) : String :=
  if tok.length > 1 ∧ tok.getD 1 "" ≠ "=" then "," ++ tok.getD 1 "" else ""

/-- _trans_lhs: translate an assignment target.  Local heads keep scname
'scope'; foreign heads use 'scope.parent', may warn about privacy
shadowing, hard-fail when lazy_check is false and the parent lacks the
name (an AttributeError when there is no parent at all, since the code
calls scope.parent.contains unconditionally), and register the head as an
output.  Returns ['=', '<scname>.set(\x27<head>\x27,_@RHS@_[,<indices>])']. -/
def transLhs (scopeOpt : Option Scope) (lazyCheck : Bool) (tok : List String)
    (ps : PS) : Except PyError (List String × PS) :=
  match scopeOpt with
  | none => .error (.attributeError noneContainsMsg)
  | some sc =>
    let t0 := tok.getD 0 ""
    if sc.contains t0 then
      .ok (["=", "scope" ++ ".set('" ++ t0 ++ "',_@RHS@_" ++ lhsTail tok ++ ")"], ps)
    else
      let ps := privWarn sc t0 ps
      let check : Except PyError Unit :=
        if lazyCheck = false then
          match sc.parent with
          | none => .error (.attributeError noneContainsMsg)
          | some par =>
            if par.contains t0 = false then
              .error (.runtimeError ("cannot find variable '" ++ t0 ++ "'"))
            else .ok ()
        else .ok ()
      match check with
      | .error e => .error e
      | .ok () =>
        .ok (["=", "scope.parent" ++ ".set('" ++ t0 ++ "',_@RHS@_" ++ lhsTail tok ++ ")"],
             registerOutput t0 ps)

/-- _trans_assign: on a matched top-level '=', store the pre-substitution
lhs text (with the _@RHS@_ placeholder removed) and the rhs text, and
substitute the placeholder; otherwise store the joined expression text as
lhs and pass the tokens through. -/
def transAssign (tok : List String) (ps : PS) : List String × PS :=
  if tok.getD 0 "" = "=" then
    ([replaceFirst (tok.getD 1 "") "_@RHS@_" (tok.getD 2 "")],
     { ps with lhs := replaceFirst (tok.getD 1 "") "_@RHS@_" "",
               rhs := tok.getD 2 "" })
  else
    (tok, { ps with lhs := String.join tok })

/-- _trans_arrayindex: collapse one or more bracket groups into a single
bracketed comma-separated index group.  tok[2] = ',' distinguishes the
multi-dimensional form [i,j,...] (further indices at 3,5,...) from the
chained form [i][j]... (further indices at 4,7,...). -/
def transArrayindex (tok : List String) : List String :=
  let items :=
    if tok.getD 2 "" = "," then pickEvery 1 (tok.drop 3)
    else pickEvery 2 (tok.drop 4)
  [items.foldl (fun acc x => acc ++ "," ++ x) ("[" ++ tok.getD 1 "") ++ "]"]

/-- _trans_arglist: rebuild an argument list '(a0,a1,...)'; an empty list
renders as '()'. -/
def transArglist (tok : List String) : List String :=
  let base := if tok.length > 2 then "(" ++ tok.getD 1 "" else "("
  [(pickEvery 1 (tok.drop 3)).foldl (fun acc x => acc ++ "," ++ x) base ++ ")"]

/-- Python str.startswith. -/
def strStartsWith (s pre : String) : Bool := pre.data.isPrefixOf s.data

/-- Lines 100-109 of _trans_fancyname: build the accessor call for a
resolved head under scope reference `scname`: no trailer or an index
trailer gives get, a call trailer gives invoke with the parentheses of
the argument list stripped. -/
def fancyTail (scname : String) (tok : List String) : List String :=
  let t0 := tok.getD 0 ""
  if tok.length = 1 ∨ (tok.length > 1 ∧ strStartsWith (tok.getD 1 "") "[") then
    let full := scname ++ ".get('" ++ t0 ++ "'"
    let full := if tok.length > 1 then full ++ "," ++ tok.getD 1 "" else full
    [full ++ ")"]
  else
    let t1 := tok.getD 1 ""
    let full := scname ++ ".invoke('" ++ t0 ++ "'"
    let full := if t1.length > 2 then full ++ "," ++ (t1.drop 1).dropRight 1 else full
    [full ++ ")"]

/-- The short-circuit condition `scope.parent is None or not
scope.parent.contains(name)` from _trans_fancyname line 94. -/
def parentLacks (sc : Scope) (n : String) : Bool :=
  match sc.parent with
  | none => true
  | some par => !(par.contains n)

/-- _trans_fancyname: a contained head that is also a plain attribute is
returned verbatim (fast local path); a contained head that is not a plain
attribute is routed through scope.get/invoke on the local scope; the
reserved token _local_setter passes through; any other head is foreign:
warn on privacy shadowing, hard-fail when lazy_check is false and there
is no parent or the parent lacks the name, register the head as an input
and build the accessor call against scope.parent. -/
def transFancyname (scopeOpt : Option Scope) (lazyCheck : Bool)
    (tok : List String) (ps : PS) : Except PyError (List String × PS) :=
  match scopeOpt with
  | none => .error (.attributeError noneContainsMsg)
  | some sc =>
    let t0 := tok.getD 0 ""
    if sc.contains t0 then
      if sc.hasattr t0 then .ok (tok, ps)
      else .ok (fancyTail "scope" tok, ps)
    else if t0 = "_local_setter" then .ok (tok, ps)
    else
      let ps := privWarn sc t0 ps
      if lazyCheck = false ∧ parentLacks sc t0 = true then
        .error (.runtimeError ("cannot find variable '" ++ t0 ++ "'"))
      else
        .ok (fancyTail "scope.parent" tok, registerInput t0 ps)

/-! ### The grammar

translate_expr builds a pyparsing grammar and parses with it; the parse
actions above fire as productions complete.  The embedding below is a
fuel-indexed recursive-descent parser over the same productions,
producing the same token lists.  A parse failure (pyparsing's
ParseException) is a soft failure that alternation backtracks over; an
exception raised inside a parse action aborts the whole parse.  State
mutations made by actions of completed sub-expressions persist across
backtracking, as they do on the Python ExprEvaluator object. -/

/-- Result of running a parser: matched token list plus remaining input,
a backtrackable parse failure, or a propagating raised exception.  The
action state rides along in every case. -/
inductive PRes where
  | ok (toks : List String) (rest : List Char) (ps : PS)
  | err (ps : PS)
  | exn (e : PyError) (ps : PS)

/-- A parser over the remaining input and the action state. -/
abbrev Parser := List Char → PS → PRes

/-- Skip leading whitespace (pyparsing's default token behaviour). -/
def skipWs (l : List Char) : List Char := l.dropWhile Char.isWhitespace

/-- pyparsing Literal: skip whitespace, match the exact string, yield it
as a token. -/
def plits (lit : String) : Parser := fun inp ps =>
  let inp := skipWs inp
  if lit.data.isPrefixOf inp then .ok [lit] (inp.drop lit.data.length) ps
  else .err ps

/-- pyparsing StringEnd: only trailing whitespace may remain. -/
def pEnd : Parser := fun inp ps =>
  if (skipWs inp).isEmpty then .ok [] inp ps else .err ps

/-- pyparsing And: sequence two parsers, concatenating their tokens. -/
def pseq (p q : Parser) : Parser := fun inp ps =>
  match p inp ps with
  | .ok t1 r1 s1 =>
    match q r1 s1 with
    | .ok t2 r2 s2 => .ok (t1 ++ t2) r2 s2
    | .err s => .err s
    | .exn e s => .exn e s
  | .err s => .err s
  | .exn e s => .exn e s

/-- pyparsing MatchFirst: try q only when p fails softly; state changes
made during the failed attempt persist. -/
def palt (p q : Parser) : Parser := fun inp ps =>
  match p inp ps with
  | .err s => q inp s
  | r => r

/-- pyparsing Optional. -/
def popt (p : Parser) : Parser := fun inp ps =>
  match p inp ps with
  | .err s => .ok [] inp s
  | r => r

/-- pyparsing ZeroOrMore, with an iteration bound (every use in this
grammar consumes input, so any bound at least the input length is
exact). -/
def pmany : Nat → Parser → Parser
  | 0, _ => fun inp ps => .ok [] inp ps
  | n + 1, p => fun inp ps =>
    match p inp ps with
    | .ok t r s =>
      match pmany n p r s with
      | .ok t2 r2 s2 => .ok (t ++ t2) r2 s2
      | .err s2 => .err s2
      | .exn e s2 => .exn e s2
    | .err s => .ok [] inp s
    | .exn e s => .exn e s

/-- pyparsing Combine: join the matched tokens into one token. -/
def pcombine (p : Parser) : Parser := fun inp ps =>
  match p inp ps with
  | .ok t r s => .ok [String.join t] r s
  | r => r

/-- Attach a parse action that may raise. -/
def withAction (p : Parser)
    (act : List String → PS → Except PyError (List String × PS)) : Parser :=
  fun inp ps =>
    match p inp ps with
    | .ok t r s =>
      match act t s with
      | .ok (t', s') => .ok t' r s'
      | .error e => .exn e s
    | r => r

/-- Attach a pure parse action. -/
def withPureAction (p : Parser) (act : List String → PS → List String × PS) :
    Parser :=
  fun inp ps =>
    match p inp ps with
    | .ok t r s =>
      let (t', s') := act t s
      .ok t' r s'
    | r => r

/-- First character of Word('_'+alphas, ...). -/
def isNameStart (c : Char) : Bool := c = '_' || c.isAlpha

/-- Body characters of Word(..., bodyChars='_'+alphanums). -/
def isNameChar (c : Char) : Bool := c = '_' || c.isAlphanum

/-- Scan one identifier with no whitespace skipping. -/
def scanName : List Char → Option (List Char × List Char)
  | [] => none
  | c :: cs =>
    if isNameStart c then some (c :: cs.takeWhile isNameChar, cs.dropWhile isNameChar)
    else none

/-- Scan ZeroOrMore('.' name) adjacent to a just-scanned name (the tail of
the Combine(name + ZeroOrMore(dot + name)) pathname production). -/
def scanDotTail : Nat → List Char → List Char × List Char
  | 0, inp => ([], inp)
  | n + 1, inp =>
    match inp with
    | c :: r =>
      if c = '.' then
        match scanName r with
        | some (nm, r') =>
          let (t, rest) := scanDotTail n r'
          (c :: (nm ++ t), rest)
        | none => ([], inp)
      else ([], inp)
    | [] => ([], inp)

/-- pathname = Combine(name + ZeroOrMore(dot + name)). -/
def ppathname : Parser := fun inp ps =>
  let inp := skipWs inp
  match scanName inp with
  | some (nm, r) =>
    let (t, rest) := scanDotTail r.length r
    .ok [⟨nm ++ t⟩] rest ps
  | none => .err ps

/-- Scan the exponent part Optional(E + Optional(sign) + digits); when the
digits are missing the whole optional group matches nothing. -/
def scanExponent (inp : List Char) : List Char × List Char :=
  match inp with
  | c :: r =>
    if c = 'e' || c = 'E' then
      let (sgn, r2) :=
        match r with
        | s :: r2 => if s = '+' || s = '-' then ([s], r2) else ([], r)
        | [] => ([], r)
      let d := r2.takeWhile Char.isDigit
      if d.isEmpty then ([], inp)
      else (c :: (sgn ++ d), r2.dropWhile Char.isDigit)
    else ([], inp)
  | [] => ([], inp)

/-- Scan the mantissa (digits + Optional(dot + Optional(digits))) |
(dot + digits). -/
def scanMantissa (inp : List Char) : Option (List Char × List Char) :=
  match inp with
  | c :: _ =>
    if c.isDigit then
      let d := inp.takeWhile Char.isDigit
      let r := inp.dropWhile Char.isDigit
      match r with
      | p :: r2 =>
        if p = '.' then
          let d2 := r2.takeWhile Char.isDigit
          some (d ++ p :: d2, r2.dropWhile Char.isDigit)
        else some (d, r)
      | [] => some (d, r)
    else if c = '.' then
      match inp with
      | _ :: r =>
        let d := r.takeWhile Char.isDigit
        if d.isEmpty then none else some (c :: d, r.dropWhile Char.isDigit)
      | [] => none
    else none
  | [] => none

/-- number = Combine(mantissa + Optional(exponent)), a single token. -/
def pnumber : Parser := fun inp ps =>
  let inp := skipWs inp
  match scanMantissa inp with
  | some (m, r) =>
    let (e, rest) := scanExponent r
    .ok [⟨m ++ e⟩] rest ps
  | none => .err ps

mutual

/-- expr << term + ZeroOrMore(addop + term). -/
def pExpr : Nat → Option Scope → Bool → Parser
  | 0, _, _ => fun _ ps => .err ps
  | n + 1, sc, lz =>
    pseq (pTerm n sc lz)
      (pmany (n + 1) (pseq (palt (plits "+") (plits "-")) (pTerm n sc lz)))

/-- term = factor + ZeroOrMore(multop + factor). -/
def pTerm : Nat → Option Scope → Bool → Parser
  | 0, _, _ => fun _ ps => .err ps
  | n + 1, sc, lz =>
    pseq (pFactor n sc lz)
      (pmany (n + 1) (pseq (palt (plits "*") (plits "/")) (pFactor n sc lz)))

/-- factor << atom + ZeroOrMore(expop + factor). -/
def pFactor : Nat → Option Scope → Bool → Parser
  | 0, _, _ => fun _ ps => .err ps
  | n + 1, sc, lz =>
    pseq (pAtom n sc lz) (pmany (n + 1) (pseq (plits "**") (pFactor n sc lz)))

/-- atom = Combine(Optional('-') + ((number | fancyname) | (lpar + expr + rpar))). -/
def pAtom : Nat → Option Scope → Bool → Parser
  | 0, _, _ => fun _ ps => .err ps
  | n + 1, sc, lz =>
    pcombine (pseq (popt (plits "-"))
      (palt (palt pnumber (pFancyname n sc lz))
        (pseq (plits "(") (pseq (pExpr n sc lz) (plits ")")))))

/-- fancyname << pathname + ZeroOrMore(arrayindex | arglist), with the
_trans_fancyname action. -/
def pFancyname : Nat → Option Scope → Bool → Parser
  | 0, _, _ => fun _ ps => .err ps
  | n + 1, sc, lz =>
    withAction
      (pseq ppathname
        (pmany (n + 1) (palt (pArrayindex n sc lz) (pArglist n sc lz))))
      (transFancyname sc lz)

/-- arrayindex << OneOrMore(lbracket + Combine(expr) +
ZeroOrMore(comma + Combine(expr)) + rbracket), with the _trans_arrayindex
action. -/
def pArrayindex : Nat → Option Scope → Bool → Parser
  | 0, _, _ => fun _ ps => .err ps
  | n + 1, sc, lz =>
    let group := pseq (plits "[")
      (pseq (pcombine (pExpr n sc lz))
        (pseq (pmany (n + 1) (pseq (plits ",") (pcombine (pExpr n sc lz))))
          (plits "]")))
    withPureAction (pseq group (pmany (n + 1) group))
      (fun t s => (transArrayindex t, s))

/-- arglist << lpar + Optional(Combine(expr) + ZeroOrMore(comma +
Combine(expr))) + rpar, with the _trans_arglist action. -/
def pArglist : Nat → Option Scope → Bool → Parser
  | 0, _, _ => fun _ ps => .err ps
  | n + 1, sc, lz =>
    withPureAction
      (pseq (plits "(")
        (pseq (popt (pseq (pcombine (pExpr n sc lz))
            (pmany (n + 1) (pseq (plits ",") (pcombine (pExpr n sc lz))))))
          (plits ")")))
      (fun t s => (transArglist t, s))

end

/-- lhs = (pathname + ZeroOrMore(arrayindex)) + assignop, with the
_trans_lhs action. -/
def pLhs (n : Nat) (sc : Option Scope) (lz : Bool) : Parser :=
  withAction
    (pseq (pseq ppathname (pmany n (pArrayindex n sc lz))) (plits "="))
    (transLhs sc lz)

/-- equation = Optional(lhs) + Combine(expr) + StringEnd, with the
_trans_assign action. -/
def pEquation (n : Nat) (sc : Option Scope) (lz : Bool) : Parser :=
  withPureAction
    (pseq (popt (pLhs n sc lz)) (pseq (pcombine (pExpr n sc lz)) pEnd))
    transAssign

/-- translate_expr: run the single-name grammar (fancyname + StringEnd) or
the full equation grammar over the text, join the resulting tokens, and
convert a parse failure into a RuntimeError; exceptions raised by parse
actions propagate.  The mutated action state is returned in both cases,
matching the in-place mutation of the Python ExprEvaluator. -/
def translateExpr (sc : Option Scope) (lz : Bool) (singleName : Bool)
    (text : String) (ps : PS) : Except (PyError × PS) (String × PS) :=
  let fuel := text.length + 30
  let p := if singleName then pseq (pFancyname fuel sc lz) pEnd
           else pEquation fuel sc lz
  match p text.data ps with
  | .ok toks _ s => .ok (String.join toks, s)
  | .err s => .error (.runtimeError ("parse error in expression '" ++ text ++ "'"), s)
  | .exn e s => .error (e, s)

/-! ### The ExprEvaluator object -/

/-- A compiled artifact, modelled by the source text it was compiled from
(Python's compile is opaque; equal sources compile to artifacts with
equal behaviour). -/
structure Code where
  src : String
deriving DecidableEq

/-- The weak reference held in ExprEvaluator._scope: either its referent
is still alive or it is gone. -/
inductive ScopeRef where
  | weak (sc : Scope)
  | dead

/-- Calling the weakref: `self._scope()`. -/
def derefScope : ScopeRef → Option Scope
  | .weak sc => some sc
  | .dead => none

/-- The attribute state of an ExprEvaluator instance.  `text` is the
untranslated `_text`; `scopedText`/`code` the rewritten text and its
compiled artifact; the assignment pair exists only for single-name
expressions. -/
structure EState where
  scopeRef : ScopeRef
  inputNames : List String
  outputNames : List String
  lazyCheck : Bool
  singleName : Bool
  text : String
  scopedText : String
  code : Option Code
  scopedAssignmentText : Option String
  assignmentCode : Option Code
  lhs : String
  rhs : String
  warnings : List String

/-- The slice of the evaluator state that parse actions mutate. -/
def psOf (s : EState) : PS :=
  ⟨s.inputNames, s.outputNames, s.lhs, s.rhs, s.warnings⟩

/-- Write the action-state slice back into the evaluator state. -/
def withPs (s : EState) (ps : PS) : EState :=
  { s with inputNames := ps.inputNames, outputNames := ps.outputNames,
           lhs := ps.lhs, rhs := ps.rhs, warnings := ps.warnings }

/-- The single-name tail of ExprEvaluator._set_text: when single_name is
set, additionally translate and compile '<text> = _local_setter' with
lazy_check forced to true for the duration of the call. -/
def setTextAssign (scopeOpt : Option Scope) (t : String) (s : EState) :
    EState × Option PyError :=
  if s.singleName then
    match translateExpr scopeOpt true false (t ++ " = _local_setter") (psOf s) with
    | .error (e, ps2) => (withPs s ps2, some e)
    | .ok (at', ps2) =>
      ({ withPs s ps2 with scopedAssignmentText := some at',
                           assignmentCode := some ⟨at'⟩ }, none)
  else (s, none)

/-- ExprEvaluator._set_text: store the new text, reset the name sets,
translate and compile, then run the single-name tail.  On a translation
error the error is raised but the mutations made so far remain,
mirroring the in-place mutation order of the Python method. -/
def setText (s : EState) (t : String) : EState × Option PyError :=
  match translateExpr (derefScope s.scopeRef) s.lazyCheck s.singleName t
      (psOf { s with text := t, inputNames := [], outputNames := [] }) with
  | .error (e, ps) =>
    (withPs { s with text := t, inputNames := [], outputNames := [] } ps, some e)
  | .ok (st, ps) =>
    setTextAssign (derefScope s.scopeRef) t
      { withPs { s with text := t, inputNames := [], outputNames := [] } ps with
        scopedText := st, code := some ⟨st⟩ }

/-- The attribute state at the top of ExprEvaluator.__init__, before the
text property is assigned. -/
def initState (scope : Scope) (singleName lazyCheck : Bool) : EState :=
  { scopeRef := .weak scope, inputNames := [], outputNames := [],
    lazyCheck := lazyCheck, singleName := singleName, text := "",
    scopedText := "", code := none, scopedAssignmentText := none,
    assignmentCode := none, lhs := "", rhs := "", warnings := [] }

/-- ExprEvaluator.__init__: take a weak reference to the scope, record the
flags, assign the text property (which runs _set_text), and then set rhs
and lhs to the empty string. -/
def mkExpr (scope : Scope) (text : String) (singleName lazyCheck : Bool) :
    EState × Option PyError :=
  match setText (initState scope singleName lazyCheck) text with
  | (s, some e) => (s, some e)
  | (s, none) => ({ s with rhs := "", lhs := "" }, none)

/-- The dict produced by ExprEvaluator.__getstate__: the weak scope
reference is replaced by its (strong) referent and _code is set to None;
every other attribute, including _assignment_code, is copied as is. -/
structure Pickled where
  dictScope : Option Scope
  inputNames : List String
  outputNames : List String
  lazyCheck : Bool
  singleName : Bool
  text : String
  scopedText : String
  code : Option Code
  scopedAssignmentText : Option String
  assignmentCode : Option Code
  lhs : String
  rhs : String
  warnings : List String

/-- ExprEvaluator.__getstate__. -/
def getstate (s : EState) : Pickled :=
  { dictScope := derefScope s.scopeRef,
    inputNames := s.inputNames, outputNames := s.outputNames,
    lazyCheck := s.lazyCheck, singleName := s.singleName, text := s.text,
    scopedText := s.scopedText, code := none,
    scopedAssignmentText := s.scopedAssignmentText,
    assignmentCode := s.assignmentCode,
    lhs := s.lhs, rhs := s.rhs, warnings := s.warnings }

/-- ExprEvaluator.__setstate__: restore the dict, wrap the scope back
into a weak reference when present, and recompile _code from the
rewritten text when it is non-empty. -/
def setstate (p : Pickled) : EState :=
  { scopeRef := match p.dictScope with
                | some sc => .weak sc
                | none => .dead,
    inputNames := p.inputNames, outputNames := p.outputNames,
    lazyCheck := p.lazyCheck, singleName := p.singleName, text := p.text,
    scopedText := p.scopedText,
    code := if p.scopedText ≠ "" then some ⟨p.scopedText⟩ else p.code,
    scopedAssignmentText := p.scopedAssignmentText,
    assignmentCode := p.assignmentCode,
    lhs := p.lhs, rhs := p.rhs, warnings := p.warnings }

/-! ### Executing compiled single-name artifacts

ExprEvaluator.evaluate runs `eval(self._code, scope.__dict__, locals())`
and ExprEvaluator.set runs `exec(self._assignment_code, ...)` with
`_local_setter` bound to the value.  Python's eval/exec and the parent
scope's get/set implementations are outside this part of the repository,
so their composition is modelled from the spec here: the parent scope is
a store keyed by the accessor path and the (textual) index group, with
get-after-set semantics; the compiled accessor-call text
`scope.parent.get('<p>'[,<ix>])` reads that store and
`scope.parent.set('<p>',_local_setter[,<ix>])` writes it.  Index
expressions are identified by their rewritten text: equal index texts
denote equal index tuples. -/

/-- Modelled from the spec: the values carried through the parent
accessor protocol. -/
abbrev Val := Int

/-- Modelled from the spec: the state of the parent scope, as a store
from (path, optional index group text) to values. -/
def Store := String × Option String → Option Val

/-- Modelled from the spec: scope.parent.set(path, value, *indices). -/
def storeSet (st : Store) (k : String × Option String) (v : Val) : Store :=
  fun k' => if k' = k then some v else st k'

/-- Build the text of a parent accessor call: `pre` is the call head up to
the opening quote, `mid` the fixed argument text after the closing quote
(empty for get, ",_local_setter" for set), `ix` the optional index group. -/
def accText (pre mid p : String) (ix : Option String) : String :=
  pre ++ "'" ++ p ++ "'" ++ mid ++
    (match ix with
     | none => ")"
     | some i => "," ++ i ++ ")")

/-- The rewritten text of a foreign single-name read. -/
def mkGetText (p : String) (ix : Option String) : String :=
  accText "scope.parent.get(" "" p ix

/-- The rewritten text of a foreign single-name assignment. -/
def mkSetText (p : String) (ix : Option String) : String :=
  accText "scope.parent.set(" ",_local_setter" p ix

/-- Strip an exact prefix of characters. -/
def stripPre : List Char → List Char → Option (List Char)
  | [], r => some r
  | _ :: _, [] => none
  | c :: cs, d :: ds => if c = d then stripPre cs ds else none

/-- Modelled from the spec: recognise a parent accessor call of shape
`pre'path'mid)` or `pre'path'mid,ix)` and return its path and optional
index group text. -/
def parseAcc (pre mid : String) (s : String) : Option (String × Option String) :=
  match stripPre pre.data s.data with
  | none => none
  | some r =>
    match r with
    | c :: r1 =>
      if c = quoteChar then
        let p := r1.takeWhile (fun d => d != quoteChar)
        match r1.dropWhile (fun d => d != quoteChar) with
        | q :: r2 =>
          if q = quoteChar then
            match stripPre mid.data r2 with
            | none => none
            | some r3 =>
              if r3 = [')'] then some (⟨p⟩, none)
              else
                match r3 with
                | comma :: more =>
                  if comma = ',' ∧ more.getLast? = some ')' then
                    some (⟨p⟩, some ⟨more.dropLast⟩)
                  else none
                | [] => none
          else none
        | [] => none
      else none
    | [] => none

/-- ExprEvaluator.evaluate, with the execution of the compiled artifact
modelled from the spec as a store read (see the section comment): check
the weak scope reference, then run the compiled get call; a failure
during execution is wrapped in a RuntimeError naming the source text. -/
def evaluateE (s : EState) (store : Store) : Except PyError Val :=
  match derefScope s.scopeRef with
  | none => .error (.runtimeError "ExprEvaluator cannot evaluate expression without scope.")
  | some _ =>
    match s.code with
    | some c =>
      match parseAcc "scope.parent.get(" "" c.src with
      | some k =>
        match store k with
        | some v => .ok v
        | none =>
          .error (.runtimeError ("ExprEvaluator failed evaluating expression '"
            ++ s.text ++ "'. Caught message is: not found"))
      | none =>
        .error (.runtimeError ("ExprEvaluator failed evaluating expression '"
          ++ s.text ++ "'. Caught message is: form not modelled"))
    | none =>
      .error (.runtimeError ("ExprEvaluator failed evaluating expression '"
        ++ s.text ++ "'. Caught message is: no compiled code"))

/-- ExprEvaluator.set: only single-name expressions may be assigned;
check the weak scope reference, then run the compiled assignment
artifact with _local_setter bound to the value — modelled from the spec
as a store write. -/
def setE (s : EState) (v : Val) (store : Store) : Except PyError Store :=
  if s.singleName then
    match derefScope s.scopeRef with
    | none => .error (.runtimeError "ExprEvaluator cannot evaluate expression without scope.")
    | some _ =>
      match s.assignmentCode with
      | some c =>
        match parseAcc "scope.parent.set(" ",_local_setter" c.src with
        | some k => .ok (storeSet store k v)
        | none =>
          .error (.runtimeError ("ExprEvaluator failed evaluating expression '"
            ++ s.text ++ "'. Caught message is: form not modelled"))
      | none =>
        .error (.runtimeError ("ExprEvaluator failed evaluating expression '"
          ++ s.text ++ "'. Caught message is: no compiled code"))
  else .error (.valueError "trying to set an input expression")

/-! ### Concrete scopes used in the theorems below -/

/-- A scope that contains every name, also as a plain attribute. -/
def scAllLocal : Scope := ⟨fun _ => true, fun _ => true, none⟩

/-- A scope containing nothing, whose parent contains every name. -/
def scForeignOK : Scope := ⟨fun _ => false, fun _ => false, some ⟨fun _ => true⟩⟩

/-- A scope containing nothing, whose parent also contains nothing. -/
def scParentEmpty : Scope := ⟨fun _ => false, fun _ => false, some ⟨fun _ => false⟩⟩

/-- A scope containing nothing, with no parent. -/
def scNoParent : Scope := ⟨fun _ => false, fun _ => false, none⟩

/-- A scope that contains every name but exposes none as a plain
attribute. -/
def scContainsNoAttr : Scope := ⟨fun _ => true, fun _ => false, none⟩

/-- A scope that contains exactly `x` (also as a plain attribute), with a
parent containing everything. -/
def scLocalX : Scope :=
  ⟨fun n => n == "x", fun n => n == "x", some ⟨fun _ => true⟩⟩

/-- The empty parent store. -/
def emptyStore : Store := fun _ => none

/-- The evaluator built over `scForeignOK` for the single-name expression
`a.b[0]` (spec scenario 4). -/
def c3State : EState := (mkExpr scForeignOK "a.b[0]" true false).1

/-- The evaluator built over `scForeignOK` for the assignment expression
`a.b = c`. -/
def c8State : EState := (mkExpr scForeignOK "a.b = c" false false).1

/-- The evaluator built over `scForeignOK` for the single-name expression
`a.b`. -/
def c9State : EState := (mkExpr scForeignOK "a.b" true false).1

/-! ### Helper lemmas -/

theorem strDataAppend (a b : String) : (a ++ b).data = a.data ++ b.data := rfl

theorem quoteData : "'".data = [quoteChar] := by decide

theorem stripPre_append (a b : List Char) : stripPre a (a ++ b) = some b := by
  induction a with
  | nil => rfl
  | cons c cs ih => simp [stripPre, ih]

theorem takeWhile_append_stop {p : Char → Bool} (xs : List Char) (y : Char)
    (r : List Char) (hxs : ∀ c ∈ xs, p c = true) (hy : p y = false) :
    (xs ++ y :: r).takeWhile p = xs ∧ (xs ++ y :: r).dropWhile p = y :: r := by
  induction xs with
  | nil => simp [List.takeWhile_cons, List.dropWhile_cons, hy]
  | cons c cs ih =>
    have hc : p c = true := hxs c (by simp)
    have h2 := ih (fun d hd => hxs d (by simp [hd]))
    simp [List.takeWhile_cons, List.dropWhile_cons, hc, h2.1, h2.2]

theorem getLast?_append_one (l : List Char) (a : Char) :
    (l ++ [a]).getLast? = some a := by
  induction l with
  | nil => rfl
  | cons c cs ih =>
    rw [List.cons_append, List.getLast?_cons]
    simp [ih]

theorem dropLast_append_one (l : List Char) (a : Char) :
    (l ++ [a]).dropLast = l := by
  simp

/-- parseAcc recovers the path and index group from a built accessor
text, provided the path contains no quote character. -/
theorem parseAcc_accText (pre mid p : String) (ix : Option String)
    (hp : ∀ c ∈ p.data, (c != quoteChar) = true) :
    parseAcc pre mid (accText pre mid p ix) = some (p, ix) := by
  have hq : (quoteChar != quoteChar) = false := by simp
  cases ix with
  | none =>
    have hdata : (accText pre mid p none).data =
        pre.data ++ quoteChar :: (p.data ++ quoteChar :: (mid.data ++ [')'])) := by
      simp [accText, strDataAppend, List.append_assoc]
      try decide
    have htw := takeWhile_append_stop (p := fun d => d != quoteChar) p.data
        quoteChar (mid.data ++ [')']) hp hq
    unfold parseAcc
    rw [hdata, stripPre_append]
    simp [htw.1, htw.2, stripPre_append]
    try rfl
  | some i =>
    have hdata : (accText pre mid p (some i)).data =
        pre.data ++ quoteChar :: (p.data ++ quoteChar :: (mid.data ++
          ',' :: (i.data ++ [')']))) := by
      simp [accText, strDataAppend, List.append_assoc]
      try decide
    have htw := takeWhile_append_stop (p := fun d => d != quoteChar) p.data
        quoteChar (mid.data ++ ',' :: (i.data ++ [')'])) hp hq
    have hne : (',' :: (i.data ++ [')'])) ≠ [')'] := by simp
    unfold parseAcc
    rw [hdata, stripPre_append]
    simp [htw.1, htw.2, stripPre_append, hne, getLast?_append_one,
          dropLast_append_one]
    try rfl

/-- The single-name tail of a successful _set_text leaves text, rewritten
text, compiled artifact and the single_name flag unchanged, and for
single-name expressions produces a matching assignment pair. -/
theorem setTextAssign_ok_spec (scopeOpt : Option Scope) (t : String)
    (s : EState) (h : (setTextAssign scopeOpt t s).2 = none) :
    ((setTextAssign scopeOpt t s).1.text = s.text ∧
     (setTextAssign scopeOpt t s).1.scopedText = s.scopedText ∧
     (setTextAssign scopeOpt t s).1.code = s.code ∧
     (setTextAssign scopeOpt t s).1.singleName = s.singleName) ∧
    (s.singleName = true →
      ∃ a, (setTextAssign scopeOpt t s).1.scopedAssignmentText = some a ∧
        (setTextAssign scopeOpt t s).1.assignmentCode = some ⟨a⟩ ∧
        ∃ ps ps', translateExpr scopeOpt true false (t ++ " = _local_setter") ps
          = .ok (a, ps')) := by
  unfold setTextAssign at h ⊢
  by_cases hsn : s.singleName = true
  · rw [if_pos hsn] at h ⊢
    cases htr : translateExpr scopeOpt true false (t ++ " = _local_setter") (psOf s) with
    | error ep =>
      rw [htr] at h
      obtain ⟨e, ps2⟩ := ep
      simp at h
    | ok aps =>
      obtain ⟨a, ps2⟩ := aps
      exact ⟨⟨rfl, rfl, rfl, rfl⟩, fun _ => ⟨a, rfl, rfl, _, _, htr⟩⟩
  · rw [if_neg hsn] at h ⊢
    exact ⟨⟨rfl, rfl, rfl, rfl⟩, fun hx => absurd hx hsn⟩

/-- A successful _set_text leaves the object consistent: the stored text
is the new text, the compiled artifact is compiled from the stored
rewritten text, the rewritten text is a translation of the new text, and
for single-name expressions the assignment artifact likewise matches a
translation of '<text> = _local_setter'. -/
theorem setText_ok_spec (s : EState) (t : String)
    (h : (setText s t).2 = none) :
    (setText s t).1.text = t ∧
    (setText s t).1.code = some ⟨(setText s t).1.scopedText⟩ ∧
    (∃ ps ps', translateExpr (derefScope s.scopeRef) s.lazyCheck s.singleName t ps
      = .ok ((setText s t).1.scopedText, ps')) ∧
    ((setText s t).1.singleName = true →
      ∃ a, (setText s t).1.scopedAssignmentText = some a ∧
        (setText s t).1.assignmentCode = some ⟨a⟩ ∧
        ∃ ps ps', translateExpr (derefScope s.scopeRef) true false
          (t ++ " = _local_setter") ps = .ok (a, ps')) := by
  unfold setText at h ⊢
  cases htr : translateExpr (derefScope s.scopeRef) s.lazyCheck s.singleName t
      (psOf { s with text := t, inputNames := [], outputNames := [] }) with
  | error ep =>
    rw [htr] at h
    obtain ⟨e, ps⟩ := ep
    simp at h
  | ok stps =>
    rw [htr] at h
    obtain ⟨st, ps⟩ := stps
    obtain ⟨⟨h1, h2, h3, h4⟩, h5⟩ := setTextAssign_ok_spec _ _ _ h
    refine ⟨h1, ?_, ?_, ?_⟩
    · rw [h3, h2]
    · rw [h2]
      exact ⟨_, _, htr⟩
    · intro hx
      exact h5 (h4 ▸ hx)

/-! ### Claim C1 -/

/-- Claim C1, counterexample: an assignment of source_text that fails to
translate is not atomic — it updates the stored text (and clears the
name sets) but leaves rewritten_text and compiled_artifact at the values
derived from the previous text.  Starting from an evaluator successfully
constructed for "a", assigning the ill-formed text "1+" raises, yet
afterwards text is "1+" while scopedText and code still reflect "a": a
reachable state whose derived artifacts are stale. -/
theorem c1_counterexample :
    (setText (mkExpr scAllLocal "a" false false).1 "1+").2 =
      some (.runtimeError "parse error in expression '1+'") ∧
    (setText (mkExpr scAllLocal "a" false false).1 "1+").1.text = "1+" ∧
    (setText (mkExpr scAllLocal "a" false false).1 "1+").1.scopedText = "a" ∧
    (setText (mkExpr scAllLocal "a" false false).1 "1+").1.code = some ⟨"a"⟩ :=
  ⟨rfl, rfl, rfl, rfl⟩

/-- Claim C1, amended: after every successful assignment of source_text
(by property assignment or at construction) the rewritten text is a
translation of the current source text and the compiled artifact is
compiled from that rewritten text; an assignment that fails with a
syntax or resolution error raises, updates source_text and clears the
name sets, but leaves rewritten_text and compiled_artifact at their
previous, now stale, values (see the counterexample). -/
theorem c1_success_consistency :
    (∀ (s : EState) (t : String), (setText s t).2 = none →
      (setText s t).1.text = t ∧
      (setText s t).1.code = some ⟨(setText s t).1.scopedText⟩ ∧
      ∃ ps ps', translateExpr (derefScope s.scopeRef) s.lazyCheck s.singleName t ps
        = .ok ((setText s t).1.scopedText, ps')) ∧
    (∀ (sc : Scope) (t : String) (sn lz : Bool), (mkExpr sc t sn lz).2 = none →
      (mkExpr sc t sn lz).1.text = t ∧
      (mkExpr sc t sn lz).1.code = some ⟨(mkExpr sc t sn lz).1.scopedText⟩ ∧
      ∃ ps ps', translateExpr (some sc) lz sn t ps
        = .ok ((mkExpr sc t sn lz).1.scopedText, ps')) := by
  constructor
  · intro s t h
    obtain ⟨h1, h2, h3, _⟩ := setText_ok_spec s t h
    exact ⟨h1, h2, h3⟩
  · intro sc t sn lz h
    unfold mkExpr at h ⊢
    cases hst : setText (initState sc sn lz) t with
    | mk s' eo =>
      rw [hst] at h
      cases eo with
      | some e => simp at h
      | none =>
        obtain ⟨h1, h2, h3, _⟩ := setText_ok_spec (initState sc sn lz) t (by rw [hst])
        rw [hst] at h1 h2 h3
        exact ⟨h1, h2, h3⟩

/-- Witness for the amended C1 theorem at the concrete construction of
"a" over a scope containing a. -/
theorem c1_success_consistency_witness :
    (mkExpr scAllLocal "a" false false).2 = none ∧
    ((mkExpr scAllLocal "a" false false).1.text = "a" ∧
     (mkExpr scAllLocal "a" false false).1.code =
       some ⟨(mkExpr scAllLocal "a" false false).1.scopedText⟩ ∧
     ∃ ps ps', translateExpr (some scAllLocal) false false "a" ps
       = .ok ((mkExpr scAllLocal "a" false false).1.scopedText, ps')) :=
  ⟨rfl, c1_success_consistency.2 scAllLocal "a" false false rfl⟩

/-! ### Claim C7 -/

/-- Claim C7: _set_text first clears input_names and output_names and
recomputes them solely from the new text — the result of setText does
not depend on the previous name sets at all, so no name from an earlier
text can survive a reassignment.  Concretely, translating "a + b" over a
scope where both names are foreign registers exactly a and b, and
reassigning the text to "a" leaves exactly a: the name b from the
earlier text is gone. -/
theorem c7_name_sets_no_accumulation :
    (∀ (s : EState) (t : String) (ins outs : List String),
      setText { s with inputNames := ins, outputNames := outs } t = setText s t) ∧
    ((mkExpr scForeignOK "a + b" false false).1.inputNames = ["a", "b"] ∧
     (setText (mkExpr scForeignOK "a + b" false false).1 "a").1.inputNames = ["a"] ∧
     (setText (mkExpr scForeignOK "a + b" false false).1 "a").1.outputNames = []) := by
  refine ⟨?_, rfl, rfl, rfl⟩
  intro s t ins outs
  cases s
  rfl

/-! ### Claim C3 -/

/-- Claim C3: for a single-name Expression over a live scope whose
compiled read and assignment artifacts are the parent accessor calls for
path p with optional index group ix — which is exactly what construction
produces for a foreign single-name path, see the witness — set(v)
followed by evaluate() returns exactly v: the write goes through
scope.parent.set and the read through scope.parent.get on the same store
key. -/
theorem c3_single_name_roundtrip (s : EState) (sc : Scope) (p : String)
    (ix : Option String) (v : Val) (store : Store)
    (hsn : s.singleName = true)
    (href : s.scopeRef = ScopeRef.weak sc)
    (hget : s.code = some ⟨mkGetText p ix⟩)
    (hset : s.assignmentCode = some ⟨mkSetText p ix⟩)
    (hp : ∀ c ∈ p.data, (c != quoteChar) = true) :
    ∃ store', setE s v store = .ok store' ∧ evaluateE s store' = .ok v := by
  refine ⟨storeSet store (p, ix) v, ?_, ?_⟩
  · unfold setE
    rw [hsn, href, hset]
    simp [derefScope, mkSetText, parseAcc_accText _ _ _ _ hp]
  · unfold evaluateE
    rw [href, hget]
    simp [derefScope, mkGetText, parseAcc_accText _ _ _ _ hp, storeSet]

/-- Witness for C3 at spec scenario 4: the evaluator constructed for
"a.b[0]" with single_name over a scope where a.b is foreign; set(42)
then evaluate() yields 42. -/
theorem c3_single_name_roundtrip_witness :
    ∃ store', setE c3State 42 emptyStore = .ok store' ∧
      evaluateE c3State store' = .ok 42 :=
  c3_single_name_roundtrip c3State scForeignOK "a.b" (some "[0]") 42 emptyStore
    rfl rfl rfl rfl (by decide)

/-! ### Claim C2 -/

/-- Claim C2, counterexample: in write (assignment-target) position with
no parent scope, the immediate error does not identify the missing
variable.  _trans_lhs calls scope.parent.contains without a None check,
so translating the assignment target gear over a parentless scope raises
Python's AttributeError for None.contains — whose message does not
mention gear — rather than the "cannot find variable" error; the same
error surfaces from constructing the expression "gear = 5". -/
theorem c2_counterexample :
    transLhs (some scNoParent) false ["gear", "="] psEmpty =
      .error (.attributeError noneContainsMsg) ∧
    strContainsSub noneContainsMsg "gear" = false ∧
    (mkExpr scNoParent "gear = 5" false false).2 =
      some (.attributeError noneContainsMsg) :=
  ⟨rfl, rfl, rfl⟩

/-- Claim C2, amended: with lazy_check false, a foreign head name that the
parent does not contain fails immediately at translation (and hence
source_text assignment) time.  In read position the error is a
RuntimeError naming the variable, whether the parent is missing or
merely lacks the name; in write position the naming RuntimeError is
raised when a parent exists but lacks the name, while a parentless scope
raises an AttributeError that does not name the variable (see the
counterexample).  The concrete conjunct is spec scenario 2: constructing
"gear * 2" over a scope whose parent lacks gear raises the naming error
before any evaluate() call. -/
theorem c2_unresolved_immediate :
    (∀ (sc : Scope) (tok : List String) (ps : PS),
      sc.contains (tok.getD 0 "") = false →
      tok.getD 0 "" ≠ "_local_setter" →
      parentLacks sc (tok.getD 0 "") = true →
      transFancyname (some sc) false tok ps =
        .error (.runtimeError ("cannot find variable '" ++ tok.getD 0 "" ++ "'"))) ∧
    (∀ (sc : Scope) (par : ParentScope) (tok : List String) (ps : PS),
      sc.contains (tok.getD 0 "") = false →
      sc.parent = some par →
      par.contains (tok.getD 0 "") = false →
      transLhs (some sc) false tok ps =
        .error (.runtimeError ("cannot find variable '" ++ tok.getD 0 "" ++ "'"))) ∧
    (∀ (sc : Scope) (tok : List String) (ps : PS),
      sc.contains (tok.getD 0 "") = false →
      sc.parent = none →
      transLhs (some sc) false tok ps = .error (.attributeError noneContainsMsg)) ∧
    ((mkExpr scParentEmpty "gear * 2" false false).2 =
      some (.runtimeError "cannot find variable 'gear'")) := by
  refine ⟨?_, ?_, ?_, rfl⟩
  · intro sc tok ps h1 h2 h3
    unfold transFancyname
    generalize hg : tok.getD 0 "" = t0 at h1 h2 h3 ⊢
    simp [h1, h2, h3]
  · intro sc par tok ps h1 h2 h3
    unfold transLhs
    generalize hg : tok.getD 0 "" = t0 at h1 h3 ⊢
    simp [h1, h2, h3]
  · intro sc tok ps h1 h2
    unfold transLhs
    generalize hg : tok.getD 0 "" = t0 at h1 ⊢
    simp [h1, h2]

/-- Witness for the amended C2 theorem: a foreign read of gear over a
scope whose parent lacks it fails with the naming error. -/
theorem c2_unresolved_immediate_witness :
    transFancyname (some scParentEmpty) false ["gear"] psEmpty =
      .error (.runtimeError ("cannot find variable '" ++ ["gear"].getD 0 "" ++ "'")) :=
  c2_unresolved_immediate.1 scParentEmpty ["gear"] psEmpty rfl (by decide) rfl

/-! ### Claim C4 -/

/-- Claim C4, counterexample: a head name with scope.contains true is not
always emitted verbatim.  When the name is not also a plain Python
attribute of the scope (hasattr false), _trans_fancyname falls through
and emits a scope.get accessor call on the local scope instead of the
verbatim reference. -/
theorem c4_counterexample :
    transFancyname (some scContainsNoAttr) false ["x"] psEmpty =
      .ok (["scope.get('x')"], psEmpty) ∧
    transFancyname (some scContainsNoAttr) false ["x"] psEmpty ≠
      .ok (["x"], psEmpty) ∧
    (mkExpr scContainsNoAttr "x" false false).1.scopedText = "scope.get('x')" :=
  ⟨rfl,
   by
     rw [show transFancyname (some scContainsNoAttr) false ["x"] psEmpty =
           .ok (["scope.get('x')"], psEmpty) from rfl]
     simp,
   rfl⟩

/-- Claim C4, amended: a head name with scope.contains true is emitted
verbatim exactly when the scope also has it as a plain attribute;
otherwise it is routed through a get/invoke accessor on the local scope
("scope", never "scope.parent").  In both cases no name is registered
and no warning is emitted, and resolution never consults the parent, so
a local name shadows any same-named parent attribute — concretely, "x"
over a scope that contains x locally while its parent also exposes x
rewrites to the verbatim local reference "x". -/
theorem c4_local_shadows_parent :
    (∀ (sc : Scope) (lz : Bool) (tok : List String) (ps : PS),
      sc.contains (tok.getD 0 "") = true →
      sc.hasattr (tok.getD 0 "") = true →
      transFancyname (some sc) lz tok ps = .ok (tok, ps)) ∧
    (∀ (sc : Scope) (lz : Bool) (tok : List String) (ps : PS),
      sc.contains (tok.getD 0 "") = true →
      sc.hasattr (tok.getD 0 "") = false →
      transFancyname (some sc) lz tok ps = .ok (fancyTail "scope" tok, ps)) ∧
    ((mkExpr scLocalX "x" false false).1.scopedText = "x") := by
  refine ⟨?_, ?_, rfl⟩
  · intro sc lz tok ps h1 h2
    unfold transFancyname
    generalize hg : tok.getD 0 "" = t0 at h1 h2 ⊢
    simp [h1, h2]
  · intro sc lz tok ps h1 h2
    unfold transFancyname
    generalize hg : tok.getD 0 "" = t0 at h1 h2 ⊢
    simp [h1, h2]

/-- Witness for the amended C4 theorem: a contained name that is also a
plain attribute passes through verbatim. -/
theorem c4_local_shadows_parent_witness :
    transFancyname (some scAllLocal) false ["velocity"] psEmpty =
      .ok (["velocity"], psEmpty) :=
  c4_local_shadows_parent.1 scAllLocal false ["velocity"] psEmpty rfl rfl

/-! ### Claim C5 -/

/-- Claim C5: a resolvable foreign head rewrites to
scope.parent.get('name') with no trailer, to
scope.parent.get('name',[indices]) with an index trailer, and to
scope.parent.invoke('name',args) with a call trailer (the argument
parentheses stripped; an empty argument list gives a bare invoke), in
each case registering the head as an input; sub-expressions keep their
own translation.  Concretely (spec scenario 3), "comp.y(x,2)" with comp
foreign rewrites to an invoke of 'comp.y' whose arguments are the
translated x — verbatim when x is local, an accessor get when x is
foreign — and the literal 2. -/
theorem c5_foreign_accessor_forms :
    (∀ (sc : Scope) (lz : Bool) (t0 : String) (ps : PS),
      sc.contains t0 = false → t0 ≠ "_local_setter" →
      (lz = false → parentLacks sc t0 = false) →
      transFancyname (some sc) lz [t0] ps =
        .ok (["scope.parent" ++ ".get('" ++ t0 ++ "'" ++ ")"],
             registerInput t0 (privWarn sc t0 ps))) ∧
    (∀ (sc : Scope) (lz : Bool) (t0 tr : String) (ps : PS),
      sc.contains t0 = false → t0 ≠ "_local_setter" →
      (lz = false → parentLacks sc t0 = false) →
      strStartsWith tr "[" = true →
      transFancyname (some sc) lz [t0, tr] ps =
        .ok (["scope.parent" ++ ".get('" ++ t0 ++ "'" ++ "," ++ tr ++ ")"],
             registerInput t0 (privWarn sc t0 ps))) ∧
    (∀ (sc : Scope) (lz : Bool) (t0 tr : String) (ps : PS),
      sc.contains t0 = false → t0 ≠ "_local_setter" →
      (lz = false → parentLacks sc t0 = false) →
      strStartsWith tr "[" = false → tr.length > 2 →
      transFancyname (some sc) lz [t0, tr] ps =
        .ok (["scope.parent" ++ ".invoke('" ++ t0 ++ "'" ++ "," ++
                (tr.drop 1).dropRight 1 ++ ")"],
             registerInput t0 (privWarn sc t0 ps))) ∧
    (∀ (sc : Scope) (lz : Bool) (t0 tr : String) (ps : PS),
      sc.contains t0 = false → t0 ≠ "_local_setter" →
      (lz = false → parentLacks sc t0 = false) →
      strStartsWith tr "[" = false → ¬ tr.length > 2 →
      transFancyname (some sc) lz [t0, tr] ps =
        .ok (["scope.parent" ++ ".invoke('" ++ t0 ++ "'" ++ ")"],
             registerInput t0 (privWarn sc t0 ps))) ∧
    ((mkExpr scLocalX "comp.y(x,2)" false false).1.scopedText =
      "scope.parent.invoke('comp.y',x,2)") ∧
    ((mkExpr scForeignOK "comp.y(x,2)" false false).1.scopedText =
      "scope.parent.invoke('comp.y',scope.parent.get('x'),2)") := by
  have hcond : ∀ (sc : Scope) (lz : Bool) (t0 : String),
      (lz = false → parentLacks sc t0 = false) →
      ¬ (lz = false ∧ parentLacks sc t0 = true) := by
    rintro sc lz t0 h ⟨hl, hp⟩
    rw [h hl] at hp
    exact Bool.false_ne_true hp
  refine ⟨?_, ?_, ?_, ?_, rfl, rfl⟩
  · intro sc lz t0 ps h1 h2 h3
    simp [transFancyname, fancyTail, h1, h2, hcond sc lz t0 h3]
  · intro sc lz t0 tr ps h1 h2 h3 h4
    simp [transFancyname, fancyTail, h1, h2, h4, hcond sc lz t0 h3]
  · intro sc lz t0 tr ps h1 h2 h3 h4 h5
    simp [transFancyname, fancyTail, h1, h2, h4, h5, hcond sc lz t0 h3]
  · intro sc lz t0 tr ps h1 h2 h3 h4 h5
    simp [transFancyname, fancyTail, h1, h2, h4, h5, hcond sc lz t0 h3]

/-- Witness for C5: the head comp.y with call trailer (x,2), foreign over
a scope whose parent contains it. -/
theorem c5_foreign_accessor_forms_witness :
    transFancyname (some scForeignOK) false ["comp.y", "(x,2)"] psEmpty =
      .ok (["scope.parent" ++ ".invoke('" ++ "comp.y" ++ "'" ++ "," ++
              ("(x,2)".drop 1).dropRight 1 ++ ")"],
           registerInput "comp.y" (privWarn scForeignOK "comp.y" psEmpty)) :=
  c5_foreign_accessor_forms.2.2.1 scForeignOK false "comp.y" "(x,2)" psEmpty
    rfl (by decide) (fun _ => rfl) (by decide) (by decide)

/-! ### Claim C6 -/

/-- Claim C6: the multi-dimensional index form [i,j] and the chained form
[i][j] are both collapsed by the array-index rewriter into the same
single bracketed group [i,j], for any index sub-expressions; and both
spellings parse and translate end to end, "a[1,2]" and "a[1][2]"
producing identical accessor calls scope.parent.get('a',[1,2]). -/
theorem c6_index_forms_equivalent :
    (∀ i j : String,
      transArrayindex ["[", i, ",", j, "]"] = ["[" ++ i ++ "," ++ j ++ "]"] ∧
      transArrayindex ["[", i, "]", "[", j, "]"] = ["[" ++ i ++ "," ++ j ++ "]"]) ∧
    (translateExpr (some scForeignOK) false false "a[1,2]" psEmpty =
      .ok ("scope.parent.get('a',[1,2])",
           ⟨["a"], [], "scope.parent.get('a',[1,2])", "", []⟩)) ∧
    (translateExpr (some scForeignOK) false false "a[1][2]" psEmpty =
      translateExpr (some scForeignOK) false false "a[1,2]" psEmpty) :=
  ⟨fun _ _ => ⟨rfl, rfl⟩, rfl, rfl⟩

/-! ### Claim C10 -/

/-- Claim C10: only foreign assignment targets are registered as outputs.
A head name with scope.contains true still routes the write through a
scope.set accessor call but is not added to output_names (the action
state is returned unchanged); a resolvable foreign head routes through
scope.parent.set and is registered.  Concretely, "x = 3" over a scope
containing x rewrites to scope.set('x',3) with empty output_names, while
over a scope where x is foreign it rewrites to scope.parent.set('x',3)
with output_names exactly ["x"]. -/
theorem c10_output_registration :
    (∀ (sc : Scope) (lz : Bool) (tok : List String) (ps : PS),
      sc.contains (tok.getD 0 "") = true →
      transLhs (some sc) lz tok ps =
        .ok (["=", "scope" ++ ".set('" ++ tok.getD 0 "" ++ "',_@RHS@_" ++
                lhsTail tok ++ ")"], ps)) ∧
    (∀ (sc : Scope) (lz : Bool) (tok : List String) (ps : PS),
      sc.contains (tok.getD 0 "") = false →
      (lz = false → parentLacks sc (tok.getD 0 "") = false) →
      transLhs (some sc) lz tok ps =
        .ok (["=", "scope.parent" ++ ".set('" ++ tok.getD 0 "" ++ "',_@RHS@_" ++
                lhsTail tok ++ ")"],
             registerOutput (tok.getD 0 "") (privWarn sc (tok.getD 0 "") ps))) ∧
    ((mkExpr scLocalX "x = 3" false false).1.scopedText = "scope.set('x',3)" ∧
     (mkExpr scLocalX "x = 3" false false).1.outputNames = []) ∧
    ((mkExpr scForeignOK "x = 3" false false).1.scopedText = "scope.parent.set('x',3)" ∧
     (mkExpr scForeignOK "x = 3" false false).1.outputNames = ["x"]) := by
  refine ⟨?_, ?_, ⟨rfl, rfl⟩, ⟨rfl, rfl⟩⟩
  · intro sc lz tok ps h1
    unfold transLhs
    generalize hg : tok.getD 0 "" = t0 at h1 ⊢
    simp [h1]
  · intro sc lz tok ps h1 h2
    unfold transLhs
    generalize hg : tok.getD 0 "" = t0 at h1 h2 ⊢
    cases lz with
    | true => simp [h1]
    | false =>
      have hpl := h2 rfl
      unfold parentLacks at hpl
      cases hpar : sc.parent with
      | none => rw [hpar] at hpl; simp at hpl
      | some par =>
        rw [hpar] at hpl
        simp at hpl
        simp [h1, hpar, hpl]

/-- Witness for C10: a local write target keeps output_names unchanged
while still routing through scope.set. -/
theorem c10_output_registration_witness :
    transLhs (some scAllLocal) false ["x", "="] psEmpty =
      .ok (["=", "scope" ++ ".set('" ++ ["x", "="].getD 0 "" ++ "',_@RHS@_" ++
              lhsTail ["x", "="] ++ ")"], psEmpty) :=
  c10_output_registration.1 scAllLocal false ["x", "="] psEmpty rfl

/-! ### Claim C8 -/

/-- Claim C8 (code bug): _set_text does populate lhs and rhs exactly as
the claim describes — for "a.b = c" the pre-substitution set() text and
the rewritten right-hand side, and for a plain expression its own
rewritten text — but __init__ assigns self.rhs = '' and self.lhs = ''
AFTER assigning the text property, so immediately after construction
both fields are always empty; only a later reassignment of the text
leaves them populated.  The conjuncts exhibit, in order: the values
_set_text stores for "a.b = c"; the plain-expression case storing the
rewritten text in lhs; the wiped fields after construction; and the
repopulated field after a post-construction reassignment. -/
theorem c8_lhs_rhs_wiped_at_construction :
    ((setText (initState scForeignOK false false) "a.b = c").1.lhs =
      "scope.parent.set('a.b',)" ∧
     (setText (initState scForeignOK false false) "a.b = c").1.rhs =
      "scope.parent.get('c')" ∧
     (setText (initState scForeignOK false false) "a.b = c").2 = none) ∧
    ((setText (initState scForeignOK false false) "a + b").1.lhs =
      "scope.parent.get('a')+scope.parent.get('b')") ∧
    ((mkExpr scForeignOK "a.b = c" false false).2 = none ∧
     c8State.lhs = "" ∧ c8State.rhs = "") ∧
    ((setText c8State "a.b = c").1.lhs = "scope.parent.set('a.b',)" ∧
     (setText c8State "a.b = c").1.rhs = "scope.parent.get('c')") :=
  ⟨⟨rfl, rfl, rfl⟩, rfl, ⟨rfl, rfl, rfl⟩, ⟨rfl, rfl⟩⟩

/-! ### Claim C9 -/

/-- Claim C9 (code bug): __getstate__ captures the scope as a strong
reference and excludes the main compiled artifact (_code becomes None),
and __setstate__ restores the weak reference and recompiles _code from
the rewritten text — but the additional assignment artifact compiled for
single_name expressions is NOT excluded: _assignment_code, a code object
of the very type the method's own comment says won't pickle, stays in
the serialized dict and is never recompiled on restore. -/
theorem c9_assignment_artifact_not_excluded :
    ((mkExpr scForeignOK "a.b" true false).2 = none) ∧
    (c9State.assignmentCode =
      some ⟨"scope.parent.set('a.b',_local_setter)"⟩) ∧
    ((getstate c9State).code = none) ∧
    ((getstate c9State).assignmentCode =
      some ⟨"scope.parent.set('a.b',_local_setter)"⟩) ∧
    ((getstate c9State).dictScope = some scForeignOK) ∧
    ((setstate (getstate c9State)).scopeRef = ScopeRef.weak scForeignOK) ∧
    ((setstate (getstate c9State)).code = some ⟨"scope.parent.get('a.b')"⟩) ∧
    ((setstate (getstate c9State)).assignmentCode =
      (getstate c9State).assignmentCode) :=
  ⟨rfl, rfl, rfl, rfl, rfl, rfl, rfl, rfl⟩

end Expreval
